import Mathlib

/-!
Verification of the led-stock-ticker-proxy aggregation engine.

Shallow embedding of `src/data/ticker.py` (class `Ticker`) and
`src/api/data.py` (class `Data`).  Conventions:

* Python floats holding prices are modelled as exact rationals (`ℚ`);
  wall-clock instants and second counts are modelled as integers (`ℤ`).
* A Python method that can raise is modelled as returning the mutated state
  together with an `Option PyError` (`some e` = the exception `e` escaped).
* A provider call that the code wraps in `try/except RequestException`
  is modelled by an `Option` input: `none` means the request failed and the
  handler ran (the Python function then falls through and returns `None`).
* `sys.exit(1)` is modelled as a distinguished outcome constructor.
-/

namespace StockTicker

/-! ### Decimal formatting, modelling Python `"%.2f"`-style output

`Ticker.get_value_change` and `Ticker.get_percentage_change` format their
result with a two-decimal format spec., which rounds the value half-to-even
to two decimal places and renders sign, integer digits, a point, and exactly
two fraction digits. -/

/-- Decimal digits of `n`, most significant first; `fuel` bounds recursion
(`fuel = n + 1` always suffices). -/
def natDecAux : Nat → Nat → List Char
  | 0, _ => []
  | fuel+1, n =>
    if n < 10 then [Nat.digitChar n]
    else natDecAux fuel (n / 10) ++ [Nat.digitChar (n % 10)]

/-- Round a rational to the nearest integer, ties to even (Python rounding of
an exact value). -/
def rhe (q : ℚ) : ℤ :=
  let f : ℤ := ⌊q⌋
  if q - (f : ℚ) < 1/2 then f
  else if (1 : ℚ)/2 < q - (f : ℚ) then f + 1
  else if f % 2 = 0 then f else f + 1

/-- Python two-decimal formatting of the exact value `q`: round `100*q`
half-to-even, then render `sign ++ integer digits ++ point ++ two digits`. -/
def fmt2 (q : ℚ) : String :=
  let m : Nat := (rhe (100 * q)).natAbs
  String.mk ((if q < 0 then ['-'] else []) ++ natDecAux (m / 100 + 1) (m / 100)
      ++ ['.', Nat.digitChar (m % 100 / 10), Nat.digitChar (m % 100 % 10)])

/-! ### The `Ticker` instrument (src/data/ticker.py) -/

/-- Python exceptions that the embedded code can raise. -/
inductive PyError
  | typeError
  | zeroDivisionError
deriving DecidableEq

/-- Mutable attributes of a `Ticker` instance that the embedded methods touch.
`ticker`, `country` and `api_key` are immutable constructor arguments and are
passed to the standalone validation functions instead. -/
structure Ticker where
  name : Option String
  prev_day_close_price : Option ℚ
  current_price : Option ℚ
  value_change : Option String
  percentage_change : Option String
  data_initialized : Bool
  last_updated : ℤ
  update_rate : ℤ

/-- Provider responses consumed by one `setup_data`/`update_data` round.
`none` models a `RequestException` caught inside the corresponding
`get_*` method, which then implicitly returns Python `None`. -/
structure FetchEnv where
  name : Option String
  prev_close : Option ℚ
  price : Option ℚ

/-- Embeds `Ticker.get_value_change`: formats
`self.current_price - self.prev_day_close_price` to two decimals.
If either operand is Python `None` the subtraction raises `TypeError`. -/
def get_value_change (cur prev : Option ℚ) : Except PyError String :=
  match cur, prev with
  | some c, some p => Except.ok (fmt2 (c - p))
  | _, _ => Except.error PyError.typeError

/-- Embeds `Ticker.get_percentage_change`: formats
`100 * ((current - prev_close) / abs(prev_close))` to two decimals and
appends a percent sign.  `None` operands raise `TypeError`; a zero
previous close raises `ZeroDivisionError` (the code has no guard). -/
def get_percentage_change (cur prev : Option ℚ) : Except PyError String :=
  match cur, prev with
  | some c, some p =>
    if p = 0 then Except.error PyError.zeroDivisionError
    else Except.ok (fmt2 (100 * ((c - p) / |p|)) ++ "%")
  | _, _ => Except.error PyError.typeError

/-- Embeds `Ticker.setup_data`: assigns name, previous close and current
price from the provider round, then the two derived fields.  The derived
computations read the attributes just assigned, so they are computed from
`env` directly.  An exception aborts the remaining assignments and escapes
with the partially updated state. -/
def setup_data (st : Ticker) (env : FetchEnv) : Ticker × Option PyError :=
  let st1 : Ticker :=
    { st with name := env.name, prev_day_close_price := env.prev_close,
              current_price := env.price }
  match get_value_change env.price env.prev_close with
  | Except.error e => (st1, some e)
  | Except.ok vc =>
    match get_percentage_change env.price env.prev_close with
    | Except.error e => ({ st1 with value_change := some vc }, some e)
    | Except.ok pc =>
      ({ st1 with value_change := some vc, percentage_change := some pc }, none)

/-- Embeds `Ticker.weekend`: `datetime.today().weekday() > 5` where Python
`weekday()` yields Monday = 0 … Saturday = 5, Sunday = 6. -/
def weekend (week_day_no : Nat) : Bool := decide (week_day_no > 5)

/-- Embeds `Ticker.after_hours`.  `tod` is the US/Eastern time of day in
seconds; the code compares the current datetime against the same datetime
with the time replaced by 09:30:00 (= 34200 s) and 16:00:00 (= 57600 s). -/
def after_hours (tod : ℤ) : Bool := decide (tod < 34200) || decide (57600 < tod)

/-- Embeds `Ticker.should_update`: outside weekends and after-hours the
decision is `now - last_updated >= update_rate`, otherwise `False`. -/
def should_update (wd : Nat) (tod : ℤ) (now last_updated update_rate : ℤ) : Bool :=
  if !weekend wd && !after_hours tod then
    decide (now - last_updated ≥ update_rate)
  else false

/-- Embeds `Ticker.update_data`: runs `setup_data` on first touch (setting
`data_initialized` only if it succeeds), then, when `force` or
`should_update()` holds, stamps `last_updated`, refetches the current price
and recomputes the two derived fields.  `wd`/`tod` feed the market-calendar
checks inside `should_update`. -/
def update_data (st : Ticker) (env : FetchEnv) (force : Bool) (wd : Nat)
    (tod now : ℤ) : Ticker × Option PyError :=
  match
    (if st.data_initialized = false then
      match setup_data st env with
      | (st1, some e) => (st1, some e)
      | (st1, none) => ({ st1 with data_initialized := true }, none)
    else (st, none) : Ticker × Option PyError) with
  | (st1, some e) => (st1, some e)
  | (st1, none) =>
    if force || should_update wd tod now st1.last_updated st1.update_rate then
      match get_value_change env.price st1.prev_day_close_price with
      | Except.error e =>
        ({ st1 with last_updated := now, current_price := env.price }, some e)
      | Except.ok vc =>
        match get_percentage_change env.price st1.prev_day_close_price with
        | Except.error e =>
          ({ st1 with
              last_updated := now
              current_price := env.price
              value_change := some vc }, some e)
        | Except.ok pc =>
          ({ st1 with
              last_updated := now
              current_price := env.price
              value_change := some vc
              percentage_change := some pc }, none)
    else (st1, none)

/-- Possible outcomes of `Ticker.ticker_valid`.  `exitProcess` models
`sys.exit(1)`; `noneResult` models the implicit `return None` after the
`except RequestException` handler. -/
inductive ValidOutcome
  | valid
  | exitProcess
  | noneResult
deriving DecidableEq

/-- Embeds `Ticker.ticker_valid`: queries the symbol-search endpoint
(`providerSymbol` is the first result's symbol, `none` on a caught
`RequestException`).  Match returns `True`; mismatch calls `sys.exit(1)`;
a caught network error logs and implicitly returns `None`. -/
def ticker_valid (ticker : String) (providerSymbol : Option String) : ValidOutcome :=
  match providerSymbol with
  | none => ValidOutcome.noneResult
  | some s =>
    if s = ticker then ValidOutcome.valid else ValidOutcome.exitProcess

/-- Python truthiness of a `ticker_valid` outcome stored in an attribute:
`True` is truthy, `None` is falsy (`exitProcess` never produces a value;
it is falsy here vacuously). -/
def pyTruthy : ValidOutcome → Bool
  | ValidOutcome.valid => true
  | _ => false

/-- Possible outcomes of `Ticker.api_key_valid` (`exitProcess` models
`sys.exit(1)`). -/
inductive KeyOutcome
  | valid
  | exitProcess
deriving DecidableEq

/-- Embeds `Ticker.api_key_valid`: exits the process when the key is `None`
or shorter than 32 characters, else returns `True`. -/
def api_key_valid (api_key : Option String) : KeyOutcome :=
  match api_key with
  | none => KeyOutcome.exitProcess
  | some k => if k.length < 32 then KeyOutcome.exitProcess else KeyOutcome.valid

/-- Externally observable steps of `Ticker.__init__`, in program order. -/
inductive InitEvent
  | networkSymbolSearch
  | credentialCheck
  | networkDataFetch
deriving DecidableEq, BEq

/-- Embeds the order of operations in `Ticker.__init__`: it runs
`self.ticker_valid()` (a symbol-search HTTP request), then
`self.api_key_valid()` (the credential check), then `self.update_data()`
(the initial data-fetch HTTP requests). -/
def init_events : List InitEvent :=
  [InitEvent.networkSymbolSearch, InitEvent.credentialCheck, InitEvent.networkDataFetch]

/-- Which constructor steps perform a network call. -/
def isNetworkEvent : InitEvent → Bool
  | InitEvent.credentialCheck => false
  | _ => true

/-- True iff the credential check occurs before the first network call of
`Ticker.__init__`. -/
def credential_before_network : Bool :=
  (init_events.takeWhile (fun e => !isNetworkEvent e)).contains InitEvent.credentialCheck

/-- Position of an event in the constructor's order of operations. -/
def evIdx (e : InitEvent) : Nat := init_events.findIdx (fun x => x == e)

/-! ### The `Data` aggregator (src/api/data.py) -/

/-- The aggregator state relevant to exchange-rate refreshing.
`last_rate_fetch` is a ghost field recording the instant of the most recent
`fetch_exchange_rate` call; the code itself keeps only `last_updated`. -/
structure Data where
  currency_exchange_rate : ℚ
  last_updated : ℤ
  last_rate_fetch : ℤ

/-- Embeds the rate-relevant part of `Data.__post_init__`: fetches the
exchange rate and stamps `last_updated = time.time()`. -/
def Data.post_init (now : ℤ) (rate : ℚ) : Data :=
  { currency_exchange_rate := rate, last_updated := now, last_rate_fetch := now }

/-- Embeds `Data.update`: refetches the exchange rate when
`time.time() - last_updated >= 3600`, then (dispatching per-ticker updates,
not modelled here) stamps `last_updated = time.time()`.  The two `time.time()`
reads of one call are modelled as the same instant `now`.  The returned
`Bool` reports whether the rate provider was called. -/
def Data.update (st : Data) (now : ℤ) (freshRate : ℚ) : Data × Bool :=
  if now - st.last_updated ≥ 3600 then
    ({ currency_exchange_rate := freshRate, last_updated := now,
       last_rate_fetch := now }, true)
  else
    ({ st with last_updated := now }, false)

/-- Embeds `Data.fetch_stock` acting on the `stocks` list and the
`valid_tickers` counter.  Modelled from the spec: the `Stock` constructor is
not under src/, so its `valid` flag is passed in as computed by symbol
validation.  Returns the new `(stocks, valid_tickers)` and whether a warning
was logged; the function itself never terminates the process. -/
def fetch_stock (stocks : List String) (valid_tickers : ℤ) (valid : Bool)
    (symbol : String) : (List String × ℤ) × Bool :=
  if valid then ((stocks ++ [symbol], valid_tickers), false)
  else ((stocks, valid_tickers - 1), true)

/-! ### The initialization join barrier (src/api/data.py, `Data.initialize`)

`initialize` dispatches one task per configured symbol; each task either
appends one element to its variant's list or decrements `valid_tickers` by
one, and the caller busy-waits until
`len(stocks) + len(cryptos) + len(forex) >= valid_tickers` (the loop guard is
`<`).  Worker interleaving is modelled as a step relation consuming a pending
multiset of tasks, each task tagged with its variant and validity. -/

/-- The three instrument variants of the aggregator. -/
inductive Variant
  | stock
  | crypto
  | forex
deriving DecidableEq

/-- State of one `initialize()` run: tasks not yet executed, the sizes of the
three collections, and the shrinking `valid_tickers` target. -/
structure InitState where
  pending : List (Variant × Bool)
  stocks : Nat
  cryptos : Nat
  forex : Nat
  valid_tickers : ℤ
deriving DecidableEq

/-- Start of `initialize()`: all configured tasks pending, empty collections,
`valid_tickers` = number of configured symbols (from `__post_init__`). -/
def initState (cfg : List (Variant × Bool)) : InitState :=
  { pending := cfg, stocks := 0, cryptos := 0, forex := 0,
    valid_tickers := cfg.length }

/-- Effect of one completed `fetch_stock`/`fetch_crypto`/`fetch_forex` task:
append on success, decrement `valid_tickers` on an invalid symbol. -/
def runTask (s : InitState) (v : Variant) (b : Bool) : InitState :=
  match b, v with
  | true, Variant.stock => { s with stocks := s.stocks + 1 }
  | true, Variant.crypto => { s with cryptos := s.cryptos + 1 }
  | true, Variant.forex => { s with forex := s.forex + 1 }
  | false, _ => { s with valid_tickers := s.valid_tickers - 1 }

/-- Combined collection size `len(stocks) + len(cryptos) + len(forex)`. -/
def tlen (s : InitState) : Nat := s.stocks + s.cryptos + s.forex

/-- One worker completes one pending task (any one — completion order is
nondeterministic). -/
inductive InitStep : InitState → InitState → Prop
  | run (s : InitState) (l r : List (Variant × Bool)) (v : Variant) (b : Bool)
      (h : s.pending = l ++ (v, b) :: r) :
      InitStep s (runTask { s with pending := l ++ r } v b)

/-- States reachable during `initialize()` for configuration `cfg`. -/
inductive InitReach (cfg : List (Variant × Bool)) : InitState → Prop
  | refl : InitReach cfg (initState cfg)
  | step {s t : InitState} : InitReach cfg s → InitStep s t → InitReach cfg t

lemma runTask_pending (s : InitState) (v : Variant) (b : Bool) :
    (runTask s v b).pending = s.pending := by
  cases b <;> cases v <;> rfl

lemma initStep_decreases {s t : InitState} (h : InitStep s t) :
    t.pending.length < s.pending.length := by
  cases h with
  | run l r v b hp =>
    rw [runTask_pending, hp]
    simp [List.length_append]

/-- Core invariant of the join: the shrinking target always equals the
combined collection size plus the number of unfinished tasks. -/
lemma initReach_invariant {cfg : List (Variant × Bool)} {s : InitState}
    (h : InitReach cfg s) :
    s.valid_tickers = (tlen s : ℤ) + s.pending.length := by
  induction h with
  | refl => simp [initState, tlen]
  | step hr hstep ih =>
    cases hstep with
    | run l r v b hp =>
      rw [hp] at ih
      cases b <;> cases v <;>
        simp only [runTask, tlen, List.length_append, List.length_cons] at ih ⊢ <;>
        push_cast at ih ⊢ <;> omega

/-- The busy-wait guard `tlen >= valid_tickers` opens exactly when every task
has settled. -/
lemma initReach_barrier {cfg : List (Variant × Bool)} {s : InitState}
    (h : InitReach cfg s) :
    ((tlen s : ℤ) ≥ s.valid_tickers ↔ s.pending = []) := by
  have hinv := initReach_invariant h
  constructor
  · intro hge
    have hlen : s.pending.length = 0 := by omega
    exact List.length_eq_zero.mp hlen
  · intro he
    rw [he] at hinv
    simp at hinv
    omega

/-- From any reachable state, running the remaining tasks reaches a state
with no pending work. -/
lemma initReach_to_empty (cfg : List (Variant × Bool)) :
    ∀ (n : Nat) (s : InitState), InitReach cfg s → s.pending.length = n →
      ∃ t, InitReach cfg t ∧ t.pending = [] := by
  intro n
  induction n with
  | zero => exact fun s hs hl => ⟨s, hs, List.length_eq_zero.mp hl⟩
  | succ n ih =>
    intro s hs hl
    match hp : s.pending with
    | [] => exact ⟨s, hs, hp⟩
    | (v, b) :: rest =>
      have hstep : InitStep s (runTask { s with pending := [] ++ rest } v b) :=
        InitStep.run s [] rest v b (by simpa using hp)
      refine ih _ (InitReach.step hs hstep) ?_
      have hpend : (runTask { s with pending := [] ++ rest } v b).pending = rest := by
        rw [runTask_pending]
        simp
      rw [hpend]
      rw [hp] at hl
      simpa using hl

/-! ### Shape of the formatted strings -/

/-- A string consisting of a nonempty prefix free of decimal points followed
by a point and exactly two decimal digits. -/
def twoDecimalString (s : String) : Prop :=
  ∃ pre d₁ d₂, s.data = pre ++ ['.', d₁, d₂] ∧ pre ≠ [] ∧ '.' ∉ pre ∧
    d₁.isDigit = true ∧ d₂.isDigit = true

lemma digitChar_spec : ∀ d : Nat, d < 10 →
    (Nat.digitChar d).isDigit = true ∧ Nat.digitChar d ≠ '.' := by decide

lemma natDecAux_mem : ∀ (fuel n : Nat) (c : Char), c ∈ natDecAux fuel n →
    ∃ d, d < 10 ∧ c = Nat.digitChar d := by
  intro fuel
  induction fuel with
  | zero => intro n c h; simp [natDecAux] at h
  | succ fuel ih =>
    intro n c h
    rw [natDecAux] at h
    split at h
    · next hlt =>
      simp at h
      exact ⟨n, hlt, h⟩
    · rw [List.mem_append] at h
      rcases h with h | h
      · exact ih _ _ h
      · simp at h
        exact ⟨n % 10, Nat.mod_lt _ (by norm_num), h⟩

lemma natDecAux_ne_nil (fuel n : Nat) : natDecAux (fuel + 1) n ≠ [] := by
  rw [natDecAux]
  split
  · simp
  · simp

lemma fmt2_twoDecimal (q : ℚ) : twoDecimalString (fmt2 q) := by
  unfold fmt2 twoDecimalString
  refine ⟨(if q < 0 then ['-'] else []) ++
      natDecAux ((rhe (100 * q)).natAbs / 100 + 1) ((rhe (100 * q)).natAbs / 100),
    Nat.digitChar ((rhe (100 * q)).natAbs % 100 / 10),
    Nat.digitChar ((rhe (100 * q)).natAbs % 100 % 10), ?_, ?_, ?_, ?_, ?_⟩
  · simp [List.append_assoc]
  · intro hemp
    rcases List.append_eq_nil.mp hemp with ⟨-, h2⟩
    exact natDecAux_ne_nil _ _ h2
  · intro hmem
    rw [List.mem_append] at hmem
    rcases hmem with h | h
    · split at h <;> simp_all
    · obtain ⟨d, hd, hc⟩ := natDecAux_mem _ _ _ h
      exact (digitChar_spec d hd).2 hc.symm
  · exact (digitChar_spec _ (by omega)).1
  · exact (digitChar_spec _ (by omega)).1

/-! ### Success-shape lemmas for the derived-field computations -/

lemma gvc_ok {cur prev : Option ℚ} {s : String}
    (h : get_value_change cur prev = Except.ok s) :
    ∃ c p, cur = some c ∧ prev = some p ∧ s = fmt2 (c - p) := by
  cases cur with
  | none => simp [get_value_change] at h
  | some c =>
    cases prev with
    | none => simp [get_value_change] at h
    | some p =>
      simp [get_value_change] at h
      exact ⟨c, p, rfl, rfl, h.symm⟩

lemma gpc_ok {cur prev : Option ℚ} {s : String}
    (h : get_percentage_change cur prev = Except.ok s) :
    ∃ c p, cur = some c ∧ prev = some p ∧ p ≠ 0 ∧
      s = fmt2 (100 * ((c - p) / |p|)) ++ "%" := by
  cases cur with
  | none => simp [get_percentage_change] at h
  | some c =>
    cases prev with
    | none => simp [get_percentage_change] at h
    | some p =>
      by_cases hp : p = 0
      · simp [get_percentage_change, hp] at h
      · simp [get_percentage_change, hp] at h
        exact ⟨c, p, rfl, rfl, hp, h.symm⟩

lemma setup_ok {st : Ticker} {env : FetchEnv} {st' : Ticker}
    (h : setup_data st env = (st', none)) :
    ∃ c p, env.price = some c ∧ env.prev_close = some p ∧ p ≠ 0 ∧
      st'.value_change = some (fmt2 (c - p)) ∧
      st'.percentage_change = some (fmt2 (100 * ((c - p) / |p|)) ++ "%") := by
  unfold setup_data at h
  split at h
  · simp at h
  · next vc hvc =>
    split at h
    · simp at h
    · next pc hpc =>
      obtain ⟨c, p, hc, hp, hs⟩ := gvc_ok hvc
      obtain ⟨c2, p2, hc2, hp2, hne, hs2⟩ := gpc_ok hpc
      have hcc : c = c2 := Option.some.inj (hc.symm.trans hc2)
      have hpp : p = p2 := Option.some.inj (hp.symm.trans hp2)
      subst hcc
      subst hpp
      rw [Prod.mk.injEq] at h
      obtain ⟨h1, -⟩ := h
      subst h1
      refine ⟨c, p, hc, hp, hne, ?_, ?_⟩ <;> simp [hs, hs2]

lemma update_refresh_ok {st : Ticker} {env : FetchEnv} {force : Bool} {wd : Nat}
    {tod now : ℤ} {st' : Ticker}
    (hinit : st.data_initialized = true)
    (hcond : (force || should_update wd tod now st.last_updated st.update_rate) = true)
    (h : update_data st env force wd tod now = (st', none)) :
    ∃ c p, env.price = some c ∧ st.prev_day_close_price = some p ∧ p ≠ 0 ∧
      st'.value_change = some (fmt2 (c - p)) ∧
      st'.percentage_change = some (fmt2 (100 * ((c - p) / |p|)) ++ "%") := by
  unfold update_data at h
  rw [hinit] at h
  simp only [Bool.true_eq_false, if_false, hcond, if_true] at h
  split at h
  · simp at h
  · next vc hvc =>
    split at h
    · simp at h
    · next pc hpc =>
      obtain ⟨c, p, hc, hp, hs⟩ := gvc_ok hvc
      obtain ⟨c2, p2, hc2, hp2, hne, hs2⟩ := gpc_ok hpc
      have hcc : c = c2 := Option.some.inj (hc.symm.trans hc2)
      have hpp : p = p2 := Option.some.inj (hp.symm.trans hp2)
      subst hcc
      subst hpp
      rw [Prod.mk.injEq] at h
      obtain ⟨h1, -⟩ := h
      subst h1
      refine ⟨c, p, hc, hp, hne, ?_, ?_⟩ <;> simp [hs, hs2]

/-! ### Evaluation helpers for concrete formatted values -/

lemma rhe_of_lt_half (q : ℚ) (f : ℤ) (h1 : (f : ℚ) ≤ q) (h2 : q < (f : ℚ) + 1/2) :
    rhe q = f := by
  have hf : ⌊q⌋ = f := by
    rw [Int.floor_eq_iff]
    constructor
    · exact h1
    · calc q < (f : ℚ) + 1/2 := h2
        _ < (f : ℚ) + 1 := by norm_num
  simp only [rhe, hf]
  rw [if_pos]
  linarith

lemma fmt2_eval (q : ℚ) (n : ℤ) (h0 : ¬ q < 0) (hn : rhe (100 * q) = n) :
    fmt2 q = String.mk (natDecAux (n.natAbs / 100 + 1) (n.natAbs / 100)
      ++ ['.', Nat.digitChar (n.natAbs % 100 / 10), Nat.digitChar (n.natAbs % 100 % 10)]) := by
  simp [fmt2, h0, hn]

/-! ### Concrete states shared by the claim instances -/

/-- A freshly constructed, not yet initialized ticker (update rate 120 s). -/
def tickerW : Ticker :=
  { name := none, prev_day_close_price := none, current_price := none,
    value_change := none, percentage_change := none, data_initialized := false,
    last_updated := 0, update_rate := 120 }

/-- A fully initialized ticker holding one successful fetch round. -/
def tickerC3 : Ticker :=
  { name := some "Apple Inc", prev_day_close_price := some 100,
    current_price := some 110, value_change := some "10.00",
    percentage_change := some "10.00%", data_initialized := true,
    last_updated := 0, update_rate := 120 }

/-- A provider round in which every request raised `RequestException`. -/
def envFail : FetchEnv := { name := none, prev_close := none, price := none }

/-- A configured mix of one valid and one invalid symbol. -/
def cfgW : List (Variant × Bool) := [(Variant.stock, true), (Variant.crypto, false)]

/-! ### Claims -/

/-- C1: the claim says the weekend check is true on Saturday and Sunday and
that an Equity's `should_update` is then false.  The code computes
`datetime.today().weekday() > 5`, and Python's `weekday()` is Saturday = 5,
Sunday = 6, so Saturday is not treated as a weekend (the code's own comment
says Saturday should be); during Saturday market hours (e.g. 10:00, i.e.
36000 s) with 1000 s elapsed against an update rate of 120 s,
`should_update` returns true.  This theorem evaluates the code at that
failing input. -/
theorem C1_weekend_saturday_eval :
    weekend 5 = false ∧ weekend 6 = true ∧ after_hours 36000 = false ∧
    should_update 5 36000 1000 0 120 = true ∧
    should_update 6 36000 1000 0 120 = false := by decide

/-- C2: the claim (and spec invariant) says a zero previous close must not
crash and must yield an explicit undefined result.  The code divides by
`abs(prev_day_close_price)` with no guard, so it raises
`ZeroDivisionError`: evaluated here at previous close 0 and current price 1,
both directly and through `setup_data`. -/
theorem C2_zero_previous_close_eval :
    get_percentage_change (some 1) (some 0)
      = Except.error PyError.zeroDivisionError ∧
    (setup_data tickerW
        { name := some "Zero Corp", prev_close := some 0, price := some 1 }).2
      = some PyError.zeroDivisionError := ⟨rfl, rfl⟩

/-- C3: the claim says a provider failure during an update leaves the field
at its previous value and never raises past `update_data`.  Evaluating the
code at a failed current-price request (caught `RequestException`, so
`get_current_price` returns `None`) on an initialized ticker with previous
close 100: `current_price` is overwritten with `None` (previous value 110
lost) and `get_value_change` then raises an uncaught `TypeError` that
escapes `update_data`; the stale `value_change` survives only because the
raise happens before its reassignment. -/
theorem C3_fetch_failure_eval :
    (update_data tickerC3 envFail true 2 36000 1000).2 = some PyError.typeError ∧
    (update_data tickerC3 envFail true 2 36000 1000).1.current_price = none ∧
    (update_data tickerC3 envFail true 2 36000 1000).1.value_change = some "10.00" :=
  ⟨rfl, rfl, rfl⟩

/-- C4 counterexample: construct at time 0 (rate fetched), update at 2000
(no refresh, but `last_updated` is reset), update again at 3700: at that
point 3700 s ≥ 3600 s have elapsed since the exchange rate was last fetched,
yet the code does not call the rate provider, because it measures from
`last_updated` (reset by every update call), not from the last rate fetch.
This refutes the claim's `if and only if`. -/
theorem C4_rate_refresh_counterexample :
    (3700 : ℤ) - ((Data.update (Data.post_init 0 1) 2000 1).1).last_rate_fetch ≥ 3600 ∧
    (Data.update ((Data.update (Data.post_init 0 1) 2000 1).1) 3700 2).2 = false ∧
    (Data.update ((Data.update (Data.post_init 0 1) 2000 1).1) 3700 2).1.currency_exchange_rate
      = 1 := by decide

/-- C4 amended: `update()` refreshes the exchange rate iff at least 3600
seconds have elapsed since `last_updated`, which records the end of the
previous `update()` call (or construction), not the last rate fetch; when it
does not refresh, the cached rate is reused unchanged, and `last_updated`
is always reset to now. -/
theorem C4_rate_refresh_amended (st : Data) (now : ℤ) (freshRate : ℚ) :
    ((Data.update st now freshRate).2 = true ↔ now - st.last_updated ≥ 3600) ∧
    ((Data.update st now freshRate).1.currency_exchange_rate
        = if now - st.last_updated ≥ 3600 then freshRate
          else st.currency_exchange_rate) ∧
    ((Data.update st now freshRate).1.last_updated = now) ∧
    ((Data.update st now freshRate).1.last_rate_fetch
        = if now - st.last_updated ≥ 3600 then now else st.last_rate_fetch) := by
  by_cases hc : now - st.last_updated ≥ 3600 <;> simp [Data.update, hc]

/-- C5 counterexample: the claim says the credential error is surfaced
before any network call for the instrument.  In `Ticker.__init__` the
symbol-search network request (`ticker_valid`) runs first, so the
credential check is not before every network call. -/
theorem C5_credential_order_counterexample :
    credential_before_network = false ∧
    init_events.head? = some InitEvent.networkSymbolSearch ∧
    isNetworkEvent InitEvent.networkSymbolSearch = true := by decide

/-- C5 amended: credential validation fails fatally (process exit) when the
key is absent or shorter than 32 characters, and it runs before the initial
data-fetch requests — but after the symbol-search network call, which the
constructor performs first. -/
theorem C5_credential_amended (k : String) (hk : k.length < 32) :
    api_key_valid (some k) = KeyOutcome.exitProcess ∧
    api_key_valid none = KeyOutcome.exitProcess ∧
    evIdx InitEvent.networkSymbolSearch < evIdx InitEvent.credentialCheck ∧
    evIdx InitEvent.credentialCheck < evIdx InitEvent.networkDataFetch := by
  refine ⟨?_, rfl, by decide, by decide⟩
  simp [api_key_valid, hk]

/-- C5 witness: a concrete 8-character key. -/
theorem C5_credential_witness :
    api_key_valid (some "shortkey") = KeyOutcome.exitProcess ∧
    api_key_valid none = KeyOutcome.exitProcess ∧
    evIdx InitEvent.networkSymbolSearch < evIdx InitEvent.credentialCheck ∧
    evIdx InitEvent.credentialCheck < evIdx InitEvent.networkDataFetch :=
  C5_credential_amended "shortkey" (by decide)

/-- C6 counterexample: the claim says that when the provider confirms a
symbol does not exist the process does not terminate.  In
`Ticker.ticker_valid`, a provider response whose canonical symbol differs
from the requested one reaches `sys.exit(1)`: the process terminates. -/
theorem C6_validation_exit_counterexample :
    ticker_valid "ZZZ" (some "ZZZZ") = ValidOutcome.exitProcess := by decide

/-- C6 amended: at the aggregator level (`Data.fetch_stock`), an instrument
whose valid flag is false is excluded (list unchanged), `valid_tickers` is
decremented, a warning is logged and the process is not terminated; but the
`Ticker` class's own symbol validation calls `sys.exit(1)` whenever the
provider's canonical symbol does not match the requested one. -/
theorem C6_validation_amended (stocks : List String) (vt : ℤ) (sym t s : String)
    (hne : s ≠ t) :
    (fetch_stock stocks vt false sym).1.1 = stocks ∧
    (fetch_stock stocks vt false sym).1.2 = vt - 1 ∧
    (fetch_stock stocks vt false sym).2 = true ∧
    ticker_valid t (some s) = ValidOutcome.exitProcess := by
  refine ⟨rfl, rfl, rfl, ?_⟩
  simp [ticker_valid, hne]

/-- C6 witness: symbol ZZZ, provider answers ZZZZ. -/
theorem C6_validation_witness :
    (fetch_stock ["AAPL"] 3 false "ZZZ").1.1 = ["AAPL"] ∧
    (fetch_stock ["AAPL"] 3 false "ZZZ").1.2 = 3 - 1 ∧
    (fetch_stock ["AAPL"] 3 false "ZZZ").2 = true ∧
    ticker_valid "ZZZ" (some "ZZZZ") = ValidOutcome.exitProcess :=
  C6_validation_amended ["AAPL"] 3 "ZZZ" "ZZZ" "ZZZZ" (by decide)

/-- C7 counterexample: the claim says a network failure during symbol
validation signals a transient fetch error and is never treated as the
symbol being invalid.  In the code a caught `RequestException` makes
`ticker_valid` fall through and return `None` — no error is signalled — and
`None` is falsy, so a truthiness test on the stored result (as the
aggregator's `if stock.valid` does) treats it exactly like an invalid
symbol. -/
theorem C7_network_validation_counterexample :
    ticker_valid "AAPL" none = ValidOutcome.noneResult ∧
    pyTruthy (ticker_valid "AAPL" none) = false ∧
    pyTruthy ValidOutcome.valid = true := by decide

/-- C7 amended: a provider failure during symbol validation is caught,
logged and yields `None` (falsy — indistinguishable from invalid under a
truthiness test), with no exception signalled to the caller; the explicit
process-exit outcome occurs exactly when the provider's canonical symbol
does not match the requested one, and validation succeeds exactly on an
exact match. -/
theorem C7_network_validation_amended (t s : String) :
    ticker_valid t none = ValidOutcome.noneResult ∧
    pyTruthy (ticker_valid t none) = false ∧
    (ticker_valid t (some s) = ValidOutcome.exitProcess ↔ ¬ s = t) ∧
    (ticker_valid t (some s) = ValidOutcome.valid ↔ s = t) := by
  refine ⟨rfl, rfl, ?_, ?_⟩ <;> by_cases h : s = t <;> simp [ticker_valid, h]

/-- C8 counterexample: with previous close 3 and current price 4,
`setup_data` succeeds and stores percentage string 33.33 percent — the
rendering of 3333/100 — while the exact value 100·((4−3)/|3|) = 100/3 is
not 3333/100.  So after a successful initial fetch the stored
`percentage_change` does not equal 100·value_change/|previous_close|: the
stored fields are two-decimal roundings, not the exact quantities. -/
theorem C8_change_fields_counterexample :
    (setup_data tickerW { name := some "N", prev_close := some 3, price := some 4 }).2
      = none ∧
    (setup_data tickerW
        { name := some "N", prev_close := some 3, price := some 4 }).1.percentage_change
      = some "33.33%" ∧
    fmt2 (3333/100 : ℚ) = "33.33" ∧
    (100 * (((4:ℚ) - 3) / |(3:ℚ)|)) ≠ (3333/100 : ℚ) := by
  have h1 : fmt2 (100 * (((4:ℚ) - 3) / |(3:ℚ)|)) = "33.33" := by
    have hr : rhe (100 * (100 * (((4:ℚ) - 3) / |(3:ℚ)|))) = 3333 := by
      apply rhe_of_lt_half
      · push_cast
        norm_num
      · push_cast
        norm_num
    rw [fmt2_eval _ 3333 (by norm_num) hr]
    decide
  refine ⟨rfl, ?_, ?_, by norm_num⟩
  · show some (fmt2 (100 * (((4:ℚ) - 3) / |(3:ℚ)|)) ++ "%") = some "33.33%"
    rw [h1]
    rfl
  · have hr : rhe (100 * (3333/100 : ℚ)) = 3333 := by
      apply rhe_of_lt_half
      · push_cast
        norm_num
      · push_cast
        norm_num
    rw [fmt2_eval _ 3333 (by norm_num) hr]
    decide

/-- C8 amended: after a successful `setup_data` with previous close p ≠ 0
and current price c, the computation succeeds and the stored fields are the
two-decimal renderings of the exact quantities: `value_change` renders
c − p, and `percentage_change` renders 100·(c − p)/|p| with a percent-sign
suffix. -/
theorem C8_change_fields_amended (st : Ticker) (nm : Option String) (c p : ℚ)
    (hp : p ≠ 0) :
    (setup_data st { name := nm, prev_close := some p, price := some c }).2 = none ∧
    (setup_data st { name := nm, prev_close := some p, price := some c }).1.value_change
      = some (fmt2 (c - p)) ∧
    (setup_data st
        { name := nm, prev_close := some p, price := some c }).1.percentage_change
      = some (fmt2 (100 * ((c - p) / |p|)) ++ "%") := by
  simp [setup_data, get_value_change, get_percentage_change, hp]

/-- C8 witness: previous close 100, current price 110 (the spec's own
end-to-end scenario). -/
theorem C8_change_fields_witness :
    (setup_data tickerW
        { name := some "Apple Inc", prev_close := some 100, price := some 110 }).2
      = none ∧
    (setup_data tickerW
        { name := some "Apple Inc", prev_close := some 100,
          price := some 110 }).1.value_change
      = some (fmt2 ((110:ℚ) - 100)) ∧
    (setup_data tickerW
        { name := some "Apple Inc", prev_close := some 100,
          price := some 110 }).1.percentage_change
      = some (fmt2 (100 * (((110:ℚ) - 100) / |(100:ℚ)|)) ++ "%") :=
  C8_change_fields_amended tickerW (some "Apple Inc") 110 100 (by decide)

/-- C9: for every configuration and every reachable interleaving state of
`initialize()`: the join invariant `valid_tickers = tlen + pending` holds;
the busy-wait guard opens exactly when no task is pending, and at that
moment the combined collection length equals `valid_tickers`; every step
strictly shrinks the pending task list (so every execution terminates); and
a state with no pending task and the count equality is reachable. -/
theorem C9_initialize_barrier (cfg : List (Variant × Bool)) (s : InitState)
    (h : InitReach cfg s) :
    s.valid_tickers = (tlen s : ℤ) + s.pending.length ∧
    ((tlen s : ℤ) ≥ s.valid_tickers ↔ s.pending = []) ∧
    (s.pending = [] → (tlen s : ℤ) = s.valid_tickers) ∧
    (∀ t, InitStep s t → t.pending.length < s.pending.length) ∧
    (∃ t, InitReach cfg t ∧ t.pending = [] ∧ (tlen t : ℤ) = t.valid_tickers) := by
  have hinv := initReach_invariant h
  refine ⟨hinv, initReach_barrier h, ?_, fun t ht => initStep_decreases ht, ?_⟩
  · intro he
    rw [he] at hinv
    simp at hinv
    omega
  · obtain ⟨t, ht, hte⟩ := initReach_to_empty cfg s.pending.length s h rfl
    have hinvt := initReach_invariant ht
    rw [hte] at hinvt
    simp at hinvt
    exact ⟨t, ht, hte, by omega⟩

/-- C9 witness: the starting state of a two-symbol configuration (one valid
stock, one invalid crypto). -/
theorem C9_initialize_barrier_witness :
    (initState cfgW).valid_tickers
      = (tlen (initState cfgW) : ℤ) + (initState cfgW).pending.length :=
  (C9_initialize_barrier cfgW (initState cfgW) InitReach.refl).1

/-- C10: every string produced by the two-decimal formatter has a nonempty
point-free prefix, then a decimal point, then exactly two decimal digits;
every successfully computed `value_change` has that shape and every
successfully computed `percentage_change` is such a string suffixed with a
percent sign; and the fields stored by a successful `setup_data`, and by a
successful `update_data` that takes the refresh branch, have those shapes. -/
theorem C10_two_decimal_format :
    (∀ q : ℚ, twoDecimalString (fmt2 q)) ∧
    (∀ cur prev s, get_value_change cur prev = Except.ok s → twoDecimalString s) ∧
    (∀ cur prev s, get_percentage_change cur prev = Except.ok s →
      ∃ t, s = t ++ "%" ∧ twoDecimalString t) ∧
    (∀ st env st', setup_data st env = (st', none) →
      (∃ a, st'.value_change = some a ∧ twoDecimalString a) ∧
      (∃ b, st'.percentage_change = some (b ++ "%") ∧ twoDecimalString b)) ∧
    (∀ st env force wd tod now st', st.data_initialized = true →
      (force || should_update wd tod now st.last_updated st.update_rate) = true →
      update_data st env force wd tod now = (st', none) →
      (∃ a, st'.value_change = some a ∧ twoDecimalString a) ∧
      (∃ b, st'.percentage_change = some (b ++ "%") ∧ twoDecimalString b)) := by
  refine ⟨fmt2_twoDecimal, ?_, ?_, ?_, ?_⟩
  · intro cur prev s h
    obtain ⟨c, p, -, -, rfl⟩ := gvc_ok h
    exact fmt2_twoDecimal _
  · intro cur prev s h
    obtain ⟨c, p, -, -, -, rfl⟩ := gpc_ok h
    exact ⟨_, rfl, fmt2_twoDecimal _⟩
  · intro st env st' h
    obtain ⟨c, p, -, -, -, hv, hpc⟩ := setup_ok h
    exact ⟨⟨_, hv, fmt2_twoDecimal _⟩, ⟨_, hpc, fmt2_twoDecimal _⟩⟩
  · intro st env force wd tod now st' h1 h2 h3
    obtain ⟨c, p, -, -, -, hv, hpc⟩ := update_refresh_ok h1 h2 h3
    exact ⟨⟨_, hv, fmt2_twoDecimal _⟩, ⟨_, hpc, fmt2_twoDecimal _⟩⟩

/-- C10 witness: concrete instances for each hypothesized part — a
value-change round with prices 4 and 3 and a forced update of the
initialized ticker. -/
theorem C10_two_decimal_format_witness :
    twoDecimalString (fmt2 (7 : ℚ)) ∧
    twoDecimalString (fmt2 ((4:ℚ) - 3)) ∧
    (∃ t, fmt2 (100 * (((4:ℚ) - 3) / |(3:ℚ)|)) ++ "%" = t ++ "%" ∧
      twoDecimalString t) ∧
    ((∃ a, (setup_data tickerW
        { name := some "N", prev_close := some 3, price := some 4 }).1.value_change
          = some a ∧ twoDecimalString a) ∧
     (∃ b, (setup_data tickerW
        { name := some "N", prev_close := some 3, price := some 4 }).1.percentage_change
          = some (b ++ "%") ∧ twoDecimalString b)) ∧
    ((∃ a, (update_data tickerC3
        { name := none, prev_close := none, price := some 4 }
        true 2 36000 1000).1.value_change = some a ∧ twoDecimalString a) ∧
     (∃ b, (update_data tickerC3
        { name := none, prev_close := none, price := some 4 }
        true 2 36000 1000).1.percentage_change
          = some (b ++ "%") ∧ twoDecimalString b)) :=
  ⟨C10_two_decimal_format.1 7,
   C10_two_decimal_format.2.1 (some 4) (some 3) (fmt2 ((4:ℚ) - 3)) rfl,
   C10_two_decimal_format.2.2.1 (some 4) (some 3)
     (fmt2 (100 * (((4:ℚ) - 3) / |(3:ℚ)|)) ++ "%") rfl,
   C10_two_decimal_format.2.2.2.1 tickerW
     { name := some "N", prev_close := some 3, price := some 4 }
     (setup_data tickerW
       { name := some "N", prev_close := some 3, price := some 4 }).1 rfl,
   C10_two_decimal_format.2.2.2.2 tickerC3
     { name := none, prev_close := none, price := some 4 } true 2 36000 1000
     (update_data tickerC3
       { name := none, prev_close := none, price := some 4 }
       true 2 36000 1000).1 rfl rfl rfl⟩

end StockTicker
